import Mathlib

/-!
# Verification of `year_in_pixels.py`

A shallow embedding of the year-in-pixels mood logger
(`src/year_in_pixels.py`) together with proofs of the specified
properties: the record model (`DayMood`, `DayEntry`), date parsing
(`date_from_iso`), CSV persistence (the `csv` reader/writer as used by
`read_days_from_file` and the `log` command's save block), the upsert
performed by the `log` command, the grid construction in
`display_year`, and the atomic-replace save.

Python exceptions are modelled by an explicit error type; fallible
operations return `Except`.
-/

namespace YearInPixels

instance {ε α : Type} [DecidableEq ε] [DecidableEq α] : DecidableEq (Except ε α)
  | .error a, .error b =>
    if h : a = b then isTrue (by rw [h]) else isFalse (by intro hc; cases hc; exact h rfl)
  | .error _, .ok _ => isFalse (by intro hc; cases hc)
  | .ok _, .error _ => isFalse (by intro hc; cases hc)
  | .ok a, .ok b =>
    if h : a = b then isTrue (by rw [h]) else isFalse (by intro hc; cases hc; exact h rfl)

/-- The Python exceptions the program can raise, by kind.
`invalidDate` is the `ValueError` from `strptime`/`date`, `invalidMood`
the `KeyError` from `DayMood[...]`, `keyError` a missing field name in a
CSV row dict, `typeError` the `TypeError` from `strptime(None)`,
`fileNotFound` the `FileNotFoundError` from `open`, `indexError` an
out-of-range Python list assignment, `ioError` a simulated I/O failure
while writing. -/
inductive PixelsError
  | invalidDate
  | invalidMood
  | keyError
  | typeError
  | fileNotFound
  | indexError
  | ioError
deriving DecidableEq, Repr

/-- An RGB color: three 8-bit channels (red, green, blue), as in the
color definitions at the top of the source. -/
def Color := Nat × Nat × Nat
deriving DecidableEq, Repr

def pink : Color := (0xff, 0, 0xff)
def lblue : Color := (0, 0xff, 0xff)
def mblue : Color := (0, 0, 0xff)
def green : Color := (0, 0xff, 0)
def navy : Color := (0, 0, 0x80)
def yellow : Color := (0xff, 0xff, 0)
def orange : Color := (0xff, 0xa5, 0x00)
def black : Color := (0, 0, 0)

/-- The `DayMood` enum: supported moods for each day. -/
inductive DayMood
  | amazing
  | good
  | normal
  | tired
  | sad
  | angry
  | stressed
deriving DecidableEq, Repr

/-- The member name `DayMood.name`: the stable enum member name, used as the on-disk
encoding. -/
def DayMood.name : DayMood → String
  | .amazing => "amazing"
  | .good => "good"
  | .normal => "normal"
  | .tired => "tired"
  | .sad => "sad"
  | .angry => "angry"
  | .stressed => "stressed"

/-- Description string for the mood (`DayMood.desc`). -/
def DayMood.desc : DayMood → String
  | .amazing => "amazing, fantastic day"
  | .good => "really good, happy day"
  | .normal => "normal, average day"
  | .tired => "exhausted, tired day"
  | .sad => "depressed, sad day"
  | .angry => "frustrated, angry day"
  | .stressed => "stressed out, frantic day"

/-- Color to display a day with this mood (`DayMood.color`). -/
def DayMood.color : DayMood → Color
  | .amazing => pink
  | .good => lblue
  | .normal => mblue
  | .tired => green
  | .sad => navy
  | .angry => yellow
  | .stressed => orange

/-- The Python lookup `DayMood[s]` by member name; raises `KeyError`
(modelled as `invalidMood`) when `s` is not a member name. -/
def moodFromName (s : String) : Except PixelsError DayMood :=
  if s = "amazing" then .ok .amazing
  else if s = "good" then .ok .good
  else if s = "normal" then .ok .normal
  else if s = "tired" then .ok .tired
  else if s = "sad" then .ok .sad
  else if s = "angry" then .ok .angry
  else if s = "stressed" then .ok .stressed
  else .error .invalidMood

/-- A calendar date, the fields of a Python `datetime.date`.
The Python type enforces validity at construction; here validity is
the separate predicate `ValidDate`. -/
structure Date where
  year : Nat
  month : Nat
  day : Nat
deriving DecidableEq, Repr

/-- Leap year test used by `datetime.date` validity checking. -/
def isLeapYear (y : Nat) : Bool := y % 4 == 0 && (y % 100 != 0 || y % 400 == 0)

/-- Number of days in month `m` of year `y`, as `datetime.date` checks. -/
def daysInMonth (y m : Nat) : Nat :=
  if m = 2 then (if isLeapYear y then 29 else 28)
  else if m = 4 ∨ m = 6 ∨ m = 9 ∨ m = 11 then 30
  else 31

/-- The invariant every Python `datetime.date` object satisfies
(`MINYEAR = 1`, `MAXYEAR = 9999`). -/
def ValidDate (d : Date) : Prop :=
  1 ≤ d.year ∧ d.year ≤ 9999 ∧ 1 ≤ d.month ∧ d.month ≤ 12 ∧
    1 ≤ d.day ∧ d.day ≤ daysInMonth d.year d.month

instance (d : Date) : Decidable (ValidDate d) := by
  unfold ValidDate; infer_instance

/-- Numeric value of a decimal digit character. -/
def digitVal (c : Char) : Nat := c.toNat - 48

/-- Split off the maximal leading run of decimal digits. -/
def takeDigits : List Char → List Char × List Char
  | [] => ([], [])
  | c :: rest =>
    if c.isDigit then
      let p := takeDigits rest
      (c :: p.1, p.2)
    else ([], c :: rest)

/-- Value of a digit string, most significant digit first. -/
def digitsToNat (ds : List Char) : Nat :=
  ds.foldl (fun acc c => 10 * acc + digitVal c) 0

/-- Value denoted by the digit run of a `%m`/`%d` segment: the regular
expressions `1[0-2]|0[1-9]|[1-9]` (month, `maxVal = 12`) and
`3[01]|[12]\d|0[1-9]|[1-9]` (day, `maxVal = 31`) accept exactly one or
two digits whose value lies in `1..maxVal`; a run of three or more
digits can never complete a match of the overall pattern. -/
def segOfDigits (maxVal : Nat) : List Char × List Char → Option (Nat × List Char)
  | ([d1], rest) =>
    if 1 ≤ digitVal d1 then some (digitVal d1, rest) else none
  | ([d1, d2], rest) =>
    if 1 ≤ 10 * digitVal d1 + digitVal d2 ∧ 10 * digitVal d1 + digitVal d2 ≤ maxVal then
      some (10 * digitVal d1 + digitVal d2, rest)
    else none
  | _ => none

/-- One `%m`- or `%d`-style segment of `strptime('%Y-%m-%d')`:
the leading digit run, constrained as in `segOfDigits`. -/
def parseSeg (maxVal : Nat) (cs : List Char) : Option (Nat × List Char) :=
  segOfDigits maxVal (takeDigits cs)

/-- The match of `strptime(s, '%Y-%m-%d')` over the characters of `s`:
`%Y` matches exactly four digits; `%m` and `%d` match one or two digits
constrained as in `parseSeg`; the whole input must be consumed; the
resulting numbers must form a valid `datetime.date` (year at least
`MINYEAR = 1`, day within the month). Any failure raises `ValueError`,
modelled as `invalidDate`. -/
def parseDateChars (cs : List Char) : Except PixelsError Date :=
  match cs with
  | y1 :: y2 :: y3 :: y4 :: sep1 :: rest =>
    if y1.isDigit ∧ y2.isDigit ∧ y3.isDigit ∧ y4.isDigit ∧ sep1 = '-' then
      match parseSeg 12 rest with
      | some (m, '-' :: rest2) =>
        match parseSeg 31 rest2 with
        | some (d, []) =>
          if 1 ≤ digitsToNat [y1, y2, y3, y4] ∧
              d ≤ daysInMonth (digitsToNat [y1, y2, y3, y4]) m then
            .ok ⟨digitsToNat [y1, y2, y3, y4], m, d⟩
          else .error .invalidDate
        | _ => .error .invalidDate
      | _ => .error .invalidDate
    else .error .invalidDate
  | _ => .error .invalidDate

/-- The function `date_from_iso(s)`: `datetime.strptime(s, '%Y-%m-%d').date()`. -/
def date_from_iso (s : String) : Except PixelsError Date :=
  parseDateChars s.data

/-- Two-digit zero-padded decimal, as in `date.__str__`
(`%02d` for month and day). -/
def pad2 (n : Nat) : List Char :=
  [Char.ofNat (48 + n / 10 % 10), Char.ofNat (48 + n % 10)]

/-- Four-digit zero-padded decimal, as in `date.__str__`
(`%04d` for the year; `MAXYEAR = 9999` keeps four digits exact). -/
def pad4 (n : Nat) : List Char :=
  [Char.ofNat (48 + n / 1000 % 10), Char.ofNat (48 + n / 100 % 10),
   Char.ofNat (48 + n / 10 % 10), Char.ofNat (48 + n % 10)]

/-- Rendering `str(d)` of a Python `date`: ISO `YYYY-MM-DD`, zero padded. -/
def formatDate (d : Date) : String :=
  ⟨pad4 d.year ++ '-' :: pad2 d.month ++ '-' :: pad2 d.day⟩

/-- A `DayEntry`: daily mood entry with date, mood and comment. -/
structure DayEntry where
  date : Date
  mood : DayMood
  comment : String
deriving DecidableEq, Repr

/-- The dict `DayEntry.to_dict` as the row the `csv.DictWriter` writes, in field
order `date, mood, comment`; the writer stringifies the `date` object
with `str`. -/
def DayEntry.toRow (e : DayEntry) : List String :=
  [formatDate e.date, e.mood.name, e.comment]

/-- The upsert performed by the `log` command (lines 201-206):
`days = list(filter(lambda d: d.date != day.date, days))` followed by
`days.append(day)`. A pure function on the in-memory list. -/
def upsert (entries : List DayEntry) (day : DayEntry) : List DayEntry :=
  (entries.filter (fun d => d.date != day.date)) ++ [day]

/-! ## CSV layer

The save block uses `csv.DictWriter(csvout, fieldnames, dialect='unix')`:
every field is quoted (`QUOTE_ALL`), embedded quote characters are
doubled (`doublequote = True`), fields are comma-delimited, rows end in
a line feed. `read_days_from_file` uses `csv.DictReader` with the
default `excel` dialect, whose reading side accepts exactly this
format (same delimiter, quote character and doubling). -/

/-- Double every quote character of a field body
(`doublequote = True` escaping). -/
def escapeQuotes : List Char → List Char
  | [] => []
  | c :: rest => if c = '"' then '"' :: '"' :: escapeQuotes rest
                 else c :: escapeQuotes rest

/-- A `QUOTE_ALL` field: always wrapped in quote characters. -/
def quoteField (s : String) : List Char :=
  '"' :: escapeQuotes s.data ++ ['"']

/-- One row as `csv.writer` with the `unix` dialect writes it: all
fields quoted, comma-delimited, terminated by `'\n'`. -/
def writeRow : List String → List Char
  | [] => ['\n']
  | [f] => quoteField f ++ ['\n']
  | f :: rest => quoteField f ++ ',' :: writeRow rest

/-- A whole file: the concatenation of its rows. -/
def writeRows (rows : List (List String)) : List Char :=
  (rows.map writeRow).flatten

/-- States of the `csv` reader's character automaton (`_csv.c`):
before a record, just after a record-terminating `'\r'` (so that a
following `'\n'` is part of the same terminator), before a field,
inside an unquoted field, inside a quoted field, and just after a
quote character inside a quoted field. -/
inductive CsvState
  | startRecord
  | afterCR
  | startField
  | inField
  | inQuoted
  | quoteInQuoted
deriving DecidableEq, Repr

/-- The `csv` reader automaton over the file's characters. `field` and
`row` accumulate the current field and record; `out` the finished
records. A quote character opens a quoted field only at field start and
is an ordinary character inside an unquoted field; a doubled quote
inside a quoted field is a literal quote; after the closing quote a
delimiter ends the field, a newline ends the record, and any other
character is appended to the field (non-strict mode). A record is
terminated by `'\n'`, `'\r'` or `'\r\n'`; a line consisting only of a
terminator is the empty record. -/
def csvScan : List Char → CsvState → List Char → List String → List (List String) →
    List (List String)
  | [], .startRecord, _, _, out => out
  | [], .afterCR, _, _, out => out
  | [], _, field, row, out => out ++ [row ++ [String.mk field]]
  | c :: input, .startRecord, field, row, out =>
    if c = '\n' then csvScan input .startRecord [] [] (out ++ [[]])
    else if c = '\r' then csvScan input .afterCR [] [] (out ++ [[]])
    else if c = '"' then csvScan input .inQuoted field row out
    else if c = ',' then csvScan input .startField [] (row ++ [String.mk field]) out
    else csvScan input .inField (field ++ [c]) row out
  | c :: input, .afterCR, field, row, out =>
    if c = '\n' then csvScan input .startRecord [] [] out
    else if c = '\r' then csvScan input .afterCR [] [] (out ++ [[]])
    else if c = '"' then csvScan input .inQuoted field row out
    else if c = ',' then csvScan input .startField [] (row ++ [String.mk field]) out
    else csvScan input .inField (field ++ [c]) row out
  | c :: input, .startField, field, row, out =>
    if c = '\n' then csvScan input .startRecord [] [] (out ++ [row ++ [String.mk field]])
    else if c = '\r' then csvScan input .afterCR [] [] (out ++ [row ++ [String.mk field]])
    else if c = '"' then csvScan input .inQuoted field row out
    else if c = ',' then csvScan input .startField [] (row ++ [String.mk field]) out
    else csvScan input .inField (field ++ [c]) row out
  | c :: input, .inField, field, row, out =>
    if c = '\n' then csvScan input .startRecord [] [] (out ++ [row ++ [String.mk field]])
    else if c = '\r' then csvScan input .afterCR [] [] (out ++ [row ++ [String.mk field]])
    else if c = ',' then csvScan input .startField [] (row ++ [String.mk field]) out
    else csvScan input .inField (field ++ [c]) row out
  | c :: input, .inQuoted, field, row, out =>
    if c = '"' then csvScan input .quoteInQuoted field row out
    else csvScan input .inQuoted (field ++ [c]) row out
  | c :: input, .quoteInQuoted, field, row, out =>
    if c = '"' then csvScan input .inQuoted (field ++ [c]) row out
    else if c = ',' then csvScan input .startField [] (row ++ [String.mk field]) out
    else if c = '\n' then csvScan input .startRecord [] [] (out ++ [row ++ [String.mk field]])
    else if c = '\r' then csvScan input .afterCR [] [] (out ++ [row ++ [String.mk field]])
    else csvScan input .inField (field ++ [c]) row out

/-- The records `list(csv.reader(...))` of a whole file content. -/
def csvParse (s : String) : List (List String) :=
  csvScan s.data .startRecord [] [] []

/-- Index of the last occurrence of `key` among the field names:
`dict(zip(fieldnames, row))` lets a later duplicate name win, and the
`restval` fill pass runs over the trailing names afterwards. -/
def lastIdx (fieldnames : List String) (key : String) : Option Nat :=
  (fieldnames.reverse.findIdx? (· == key)).map (fun i => fieldnames.length - 1 - i)

/-- Lookup `row[key]` on the dict built by `DictReader`: `none` when the key
is not a field name at all (Python `KeyError`); `some none` when the
key is a field name but the row is too short, so the value is the
`restval` default `None`; otherwise the field's string. -/
def dictRowGet (fieldnames row : List String) (key : String) : Option (Option String) :=
  match lastIdx fieldnames key with
  | none => none
  | some i => some row[i]?

/-- One row of `read_days_from_file`'s list comprehension:
`DayEntry(date_from_iso(row['date']), DayMood[row['mood']], row['comment'])`.
A missing field name raises `KeyError`; a `None` date raises
`TypeError` inside `strptime`; a `None` mood raises `KeyError` in the
enum lookup (modelled `invalidMood`). A `None` comment is stored as is;
it is modelled by `""`, which the program cannot distinguish from
`None` (both are falsy and both serialize to an empty field). -/
def rowToDayEntry (fieldnames row : List String) : Except PixelsError DayEntry := do
  let dateVal ←
    match dictRowGet fieldnames row "date" with
    | none => Except.error .keyError
    | some none => Except.error .typeError
    | some (some s) => date_from_iso s
  let moodVal ←
    match dictRowGet fieldnames row "mood" with
    | none => Except.error .keyError
    | some none => Except.error .invalidMood
    | some (some s) => moodFromName s
  let commentVal ←
    match dictRowGet fieldnames row "comment" with
    | none => Except.error .keyError
    | some v => Except.ok (v.getD "")
  pure ⟨dateVal, moodVal, commentVal⟩

/-- The body of `read_days_from_file` on file content already in hand:
`DictReader` takes the first record as the field names and skips blank
records; the list comprehension builds one `DayEntry` per record, and
any exception aborts the whole comprehension (all-or-nothing). -/
def read_days_from_csv (content : String) : Except PixelsError (List DayEntry) :=
  match csvParse content with
  | [] => .ok []
  | fieldnames :: rows =>
    (rows.filter (fun r => !r.isEmpty)).mapM (rowToDayEntry fieldnames)

/-- A flat file system: paths and their contents. -/
abbrev FileSystem := List (String × String)

/-- Reading `open(path)`: the content, or `FileNotFoundError`. -/
def readFile (fs : FileSystem) (path : String) : Option String :=
  (fs.find? (fun p => p.1 == path)).map Prod.snd

/-- The function `read_days_from_file` (lines 115-124): opens the file (raising
`FileNotFoundError` when absent) and parses it with `DictReader`. -/
def read_days_from_file (fs : FileSystem) (path : String) :
    Except PixelsError (List DayEntry) :=
  match readFile fs path with
  | none => .error .fileNotFound
  | some content => read_days_from_csv content

/-! ## Renderer -/

/-- The year grid: a list of rows of colors. -/
abbrev Grid := List (List Color)

/-- Python `l[i]` with an `int` index: negative indices count from the
end; out of range raises `IndexError`. -/
def pyGet {α : Type} (l : List α) (i : Int) : Except PixelsError α :=
  let n : Int := l.length
  let j := if i < 0 then n + i else i
  if h : 0 ≤ j ∧ j < n then .ok (l.get ⟨j.toNat, by omega⟩)
  else .error .indexError

/-- Python list assignment `l[i] = v`: negative indices count from the
end; out of range raises `IndexError`. -/
def pySet {α : Type} (l : List α) (i : Int) (v : α) : Except PixelsError (List α) :=
  let n : Int := l.length
  let j := if i < 0 then n + i else i
  if 0 ≤ j ∧ j < n then .ok (l.set j.toNat v)
  else .error .indexError

/-- The statement `X[i][j] = c`: read row `i`, assign index `j` of it,
the row staying at position `i` of the outer list. -/
def setCell (g : Grid) (i j : Int) (c : Color) : Except PixelsError Grid := do
  let row ← pyGet g i
  let row2 ← pySet row j c
  pySet g i row2

/-- The grid construction inside `display_year` (lines 105-110):
`w = 12`, `h = 31`, `X = [[black for x in range(w)] for y in range(h)]`,
then for each day `X[d.date.day - 1][d.date.month - 1] = d.mood.color`. -/
def build_year_grid (days : List DayEntry) : Except PixelsError Grid :=
  days.foldlM
    (fun g d =>
      setCell g ((d.date.day : Int) - 1) ((d.date.month : Int) - 1) d.mood.color)
    (List.replicate 31 (List.replicate 12 black))

/-- The `render` command (lines 187-190): load the file — a
`FileNotFoundError` is NOT caught here — and call `display_year` only
when the loaded list is nonempty. `some grid` is the matrix handed to
the display facility; `none` means nothing was displayed. -/
def render_command (fs : FileSystem) (path : String) :
    Except PixelsError (Option Grid) := do
  let days ← read_days_from_file fs path
  if days.isEmpty then pure none
  else do
    let g ← build_year_grid days
    pure (some g)

/-! ## Save -/

/-- The fixed field order of the save block. -/
def fieldnamesList : List String := ["date", "mood", "comment"]

/-- The save serialization: the header row, then one row per entry via
`DayEntry.to_dict`, written by the unix-dialect `DictWriter`. -/
def write_days (entries : List DayEntry) : String :=
  ⟨writeRows (fieldnamesList :: entries.map DayEntry.toRow)⟩

/-- The call `tempfile.NamedTemporaryFile` places the temporary file in the
`dir` argument when one is given, else in the platform default
temporary directory (`tempfile.gettempdir()`). -/
def namedTempFileDir (dirArg : Option String) (sysTmpDir : String) : String :=
  dirArg.getD sysTmpDir

/-- The save block (line 208) passes no `dir` argument to
`NamedTemporaryFile`. -/
def saveTempDirArg : Option String := none

/-- The lines the save block writes to the temporary file, in order:
the header first, then one row per entry. -/
def saveLines (entries : List DayEntry) : List String :=
  (fieldnamesList :: entries.map DayEntry.toRow).map (fun r => String.mk (writeRow r))

/-- Result of one run of the save block. -/
structure SaveOutcome where
  targetContent : Option String
  tempContent : Option String
  completed : Bool
deriving DecidableEq, Repr

/-- The save block (lines 208-218) with fault injection. The rows go to
the temporary file one line at a time; `failAfter = some k` (with `k`
less than the number of lines) raises an exception once `k` lines are
written — a simulated mid-write failure — so control never reaches the
`shutil.move` call: the target keeps its previous content and the
partially written temporary file is left behind (`delete=False`).
Without failure the fully written temporary file replaces the target. -/
def runSave (target : Option String) (entries : List DayEntry) (failAfter : Option Nat) :
    SaveOutcome :=
  let lines := saveLines entries
  match failAfter with
  | some k =>
    if k < lines.length then
      ⟨target, some (String.join (lines.take k)), false⟩
    else
      ⟨some (String.join lines), none, true⟩
  | none => ⟨some (String.join lines), none, true⟩

/-- Cell `(i, j)` of a grid (day row `i`, month column `j`), read with
harmless defaults; the theorems only use it at in-bounds indices. -/
def cell (g : Grid) (i j : Nat) : Color :=
  (g.getD i []).getD j black

/-- The last entry of `days` that writes to cell `(i, j)`:
day of month `i + 1`, month `j + 1`. -/
def lastMatch (days : List DayEntry) (i j : Nat) : Option DayEntry :=
  days.reverse.find? (fun d => d.date.day == i + 1 && d.date.month == j + 1)

/-! ## Theorems -/

theorem except_bind_ok {ε α β : Type} (a : α) (f : α → Except ε β) :
    (Except.ok a >>= f : Except ε β) = f a := rfl

theorem pyGet_ok {α : Type} (l : List α) (i : Int) (d : α) (h0 : 0 ≤ i)
    (h1 : i < (l.length : Int)) :
    pyGet l i = .ok (l.getD i.toNat d) := by
  have hni : ¬ (i < 0) := by omega
  simp only [pyGet, if_neg hni]
  rw [dif_pos ⟨h0, h1⟩]
  rw [List.getD_eq_getElem?_getD, List.getElem?_eq_getElem (by omega),
    Option.getD_some, List.get_eq_getElem]

theorem pySet_ok {α : Type} (l : List α) (i : Int) (v : α) (h0 : 0 ≤ i)
    (h1 : i < (l.length : Int)) :
    pySet l i v = .ok (l.set i.toNat v) := by
  have hni : ¬ (i < 0) := by omega
  simp only [pySet, if_neg hni]
  rw [if_pos ⟨h0, h1⟩]

theorem setCell_ok (g : Grid) (day month : Nat) (c : Color)
    (hg : g.length = 31) (hrows : ∀ row ∈ g, List.length row = 12)
    (hd1 : 1 ≤ day) (hd2 : day ≤ 31) (hm1 : 1 ≤ month) (hm2 : month ≤ 12) :
    setCell g ((day : Int) - 1) ((month : Int) - 1) c =
      .ok (g.set (day - 1) ((g.getD (day - 1) []).set (month - 1) c)) := by
  have hdn : ((day : Int) - 1).toNat = day - 1 := by omega
  have hmn : ((month : Int) - 1).toNat = month - 1 := by omega
  have hrowlen : (g.getD (day - 1) []).length = 12 := by
    rw [List.getD_eq_getElem?_getD, List.getElem?_eq_getElem (by omega), Option.getD_some]
    exact hrows _ (List.getElem_mem _)
  unfold setCell
  rw [pyGet_ok g _ [] (by omega) (by omega), except_bind_ok, hdn]
  rw [pySet_ok _ _ _ (by omega) (by rw [hrowlen]; omega), except_bind_ok, hmn]
  rw [pySet_ok _ _ _ (by omega) (by omega), hdn]

theorem setCell_dims_cells (g : Grid) (day month : Nat) (c : Color)
    (hg : g.length = 31) (hrows : ∀ row ∈ g, List.length row = 12)
    (hd2 : day ≤ 31) (_hm2 : month ≤ 12) :
    (g.set (day - 1) ((g.getD (day - 1) []).set (month - 1) c)).length = 31 ∧
      (∀ row ∈ g.set (day - 1) ((g.getD (day - 1) []).set (month - 1) c),
        List.length row = 12) ∧
      ∀ i j, i < 31 → j < 12 →
        cell (g.set (day - 1) ((g.getD (day - 1) []).set (month - 1) c)) i j =
          if i = day - 1 ∧ j = month - 1 then c else cell g i j := by
  have hrowlen : (g.getD (day - 1) []).length = 12 := by
    rw [List.getD_eq_getElem?_getD, List.getElem?_eq_getElem (by omega), Option.getD_some]
    exact hrows _ (List.getElem_mem _)
  refine ⟨by simp [hg], ?_, ?_⟩
  · intro row hrow
    rcases List.mem_or_eq_of_mem_set hrow with h | h
    · exact hrows _ h
    · subst h; rw [List.length_set]; exact hrowlen
  · intro i j hi hj
    unfold cell
    simp only [List.getD_eq_getElem?_getD]
    have hgi : g[day - 1]? = some (g.getD (day - 1) []) := by
      rw [List.getElem?_eq_getElem (show day - 1 < g.length by omega)]
      rw [List.getD_eq_getElem?_getD,
        List.getElem?_eq_getElem (show day - 1 < g.length by omega), Option.getD_some]
    by_cases hie : i = day - 1
    · subst hie
      rw [List.getElem?_set_self (by omega), Option.getD_some, hgi, Option.getD_some]
      by_cases hje : j = month - 1
      · subst hje
        rw [List.getElem?_set_self (by rw [hrowlen]; omega), Option.getD_some]
        rw [if_pos ⟨rfl, rfl⟩]
      · rw [List.getElem?_set_ne (by omega)]
        rw [if_neg (by tauto)]
    · rw [List.getElem?_set_ne (by omega)]
      rw [if_neg (by tauto)]

theorem isDigit_ofNat (k : Nat) (hk : k < 10) : (Char.ofNat (48 + k)).isDigit = true := by
  interval_cases k <;> decide

theorem digitVal_ofNat (k : Nat) (hk : k < 10) : digitVal (Char.ofNat (48 + k)) = k := by
  interval_cases k <;> decide

theorem takeDigits_cons_digit (c : Char) (l : List Char) (h : c.isDigit = true) :
    takeDigits (c :: l) = (c :: (takeDigits l).1, (takeDigits l).2) := by
  simp [takeDigits, h]

theorem takeDigits_cons_nondigit (c : Char) (l : List Char) (h : c.isDigit = false) :
    takeDigits (c :: l) = ([], c :: l) := by
  simp [takeDigits, h]

theorem parseSeg_pad2 (maxVal n : Nat) (tail : List Char)
    (hn1 : 1 ≤ n) (hn2 : n ≤ maxVal) (h99 : n < 100)
    (ht : takeDigits tail = ([], tail)) :
    parseSeg maxVal (Char.ofNat (48 + n / 10 % 10) :: Char.ofNat (48 + n % 10) :: tail) =
      some (n, tail) := by
  have h1 := isDigit_ofNat (n / 10 % 10) (Nat.mod_lt _ (by omega))
  have h2 := isDigit_ofNat (n % 10) (Nat.mod_lt _ (by omega))
  unfold parseSeg
  rw [takeDigits_cons_digit _ _ h1, takeDigits_cons_digit _ _ h2, ht]
  simp only [segOfDigits, digitVal_ofNat (n / 10 % 10) (Nat.mod_lt _ (by omega)),
    digitVal_ofNat (n % 10) (Nat.mod_lt _ (by omega))]
  have hval : 10 * (n / 10 % 10) + n % 10 = n := by omega
  rw [hval, if_pos ⟨hn1, hn2⟩]

theorem daysInMonth_le (y m : Nat) : daysInMonth y m ≤ 31 := by
  unfold daysInMonth
  split
  · split <;> omega
  · split <;> omega

/-- Shared with C2 and C7: parsing back a formatted valid date yields
the same date. -/
theorem date_from_iso_formatDate (d : Date) (hv : ValidDate d) :
    date_from_iso (formatDate d) = .ok d := by
  obtain ⟨y, m, day⟩ := d
  obtain ⟨hy1, hy2, hm1, hm2, hd1, hd2⟩ := hv
  simp only at hy1 hy2 hm1 hm2 hd1 hd2
  have hday99 : day < 100 := by
    have := daysInMonth_le y m
    omega
  show parseDateChars
    (Char.ofNat (48 + y / 1000 % 10) :: Char.ofNat (48 + y / 100 % 10) ::
      Char.ofNat (48 + y / 10 % 10) :: Char.ofNat (48 + y % 10) :: '-' ::
      Char.ofNat (48 + m / 10 % 10) :: Char.ofNat (48 + m % 10) :: '-' ::
      Char.ofNat (48 + day / 10 % 10) :: Char.ofNat (48 + day % 10) :: []) =
    .ok ⟨y, m, day⟩
  unfold parseDateChars
  simp only []
  rw [if_pos ⟨isDigit_ofNat _ (Nat.mod_lt _ (by omega)),
    isDigit_ofNat _ (Nat.mod_lt _ (by omega)), isDigit_ofNat _ (Nat.mod_lt _ (by omega)),
    isDigit_ofNat _ (Nat.mod_lt _ (by omega)), trivial⟩]
  rw [parseSeg_pad2 12 m _ hm1 hm2 (by omega)
    (takeDigits_cons_nondigit _ _ (by decide))]
  simp only []
  rw [parseSeg_pad2 31 day [] hd1 (le_trans hd2 (daysInMonth_le y m)) hday99 rfl]
  simp only []
  have hy : digitsToNat [Char.ofNat (48 + y / 1000 % 10), Char.ofNat (48 + y / 100 % 10),
      Char.ofNat (48 + y / 10 % 10), Char.ofNat (48 + y % 10)] = y := by
    simp only [digitsToNat, List.foldl, digitVal_ofNat (y / 1000 % 10) (Nat.mod_lt _ (by omega)),
      digitVal_ofNat (y / 100 % 10) (Nat.mod_lt _ (by omega)),
      digitVal_ofNat (y / 10 % 10) (Nat.mod_lt _ (by omega)),
      digitVal_ofNat (y % 10) (Nat.mod_lt _ (by omega))]
    omega
  rw [hy, if_pos ⟨hy1, hd2⟩]

theorem digitVal_le_of_isDigit (c : Char) (h : c.isDigit = true) : digitVal c ≤ 9 := by
  simp only [Char.isDigit, Bool.and_eq_true, decide_eq_true_eq, ge_iff_le] at h
  obtain ⟨h1, h2⟩ := h
  have h2n : c.val.toNat ≤ 57 := h2
  unfold digitVal Char.toNat
  omega

theorem takeDigits_digits (cs : List Char) : ∀ c ∈ (takeDigits cs).1, c.isDigit = true := by
  induction cs with
  | nil => intro c hc; simp [takeDigits] at hc
  | cons a rest ih =>
    intro c hc
    by_cases h : a.isDigit = true
    · rw [takeDigits_cons_digit _ _ h] at hc
      rcases List.mem_cons.mp hc with h1 | h1
      · subst h1; exact h
      · exact ih c h1
    · rw [takeDigits_cons_nondigit _ _ (by revert h; cases a.isDigit <;> simp)] at hc
      simp at hc

theorem parseSeg_sound (maxVal : Nat) (cs : List Char) (v : Nat) (rest : List Char)
    (h9 : 9 ≤ maxVal) (h : parseSeg maxVal cs = some (v, rest)) :
    1 ≤ v ∧ v ≤ maxVal := by
  have hdig := takeDigits_digits cs
  unfold parseSeg at h
  unfold segOfDigits at h
  split at h
  · next d1 r heq =>
    rw [heq] at hdig
    have hd1 : digitVal d1 ≤ 9 := digitVal_le_of_isDigit d1 (hdig d1 (by simp))
    split at h
    · next hge =>
      injection h with h2
      injection h2 with hv hr
      omega
    · cases h
  · next d1 d2 r heq =>
    rw [heq] at hdig
    split at h
    · next hge =>
      injection h with h2
      injection h2 with hv hr
      omega
    · cases h
  · cases h

/-- Shared with C7: everything `date_from_iso` accepts is a valid
calendar date (month 1-12, day within the month, year 1-9999). -/
theorem date_from_iso_valid (s : String) (d : Date) (h : date_from_iso s = .ok d) :
    ValidDate d := by
  unfold date_from_iso parseDateChars at h
  split at h
  · next y1 y2 y3 y4 sep1 rest heq =>
    split at h
    · next hdig =>
      obtain ⟨hdy1, hdy2, hdy3, hdy4, hsep⟩ := hdig
      split at h
      · next m rest2 hseg1 =>
        split at h
        · next dd hseg2 =>
          split at h
          · next hcond =>
            injection h with h2
            have hm := parseSeg_sound 12 rest m _ (by omega) hseg1
            have hd := parseSeg_sound 31 rest2 dd _ (by omega) hseg2
            have hy : digitsToNat [y1, y2, y3, y4] ≤ 9999 := by
              have b1 := digitVal_le_of_isDigit y1 hdy1
              have b2 := digitVal_le_of_isDigit y2 hdy2
              have b3 := digitVal_le_of_isDigit y3 hdy3
              have b4 := digitVal_le_of_isDigit y4 hdy4
              simp only [digitsToNat, List.foldl]
              omega
            subst h2
            exact ⟨hcond.1, hy, hm.1, hm.2, hd.1, hcond.2⟩
          · cases h
        · cases h
      · cases h
    · cases h
  · cases h

theorem formatDate_length (d : Date) : (formatDate d).length = 10 := rfl

/-- C7 counterexample: `"2019-1-14"` is not a zero-padded ISO-8601
`YYYY-MM-DD` string (those have length 10), yet `date_from_iso`
accepts it, refuting "on any other input it fails with
`InvalidDateError`". -/
theorem date_from_iso_counterexample :
    (¬ ∃ d : Date, ValidDate d ∧ "2019-1-14" = formatDate d) ∧
      date_from_iso "2019-1-14" = .ok ⟨2019, 1, 14⟩ := by
  constructor
  · rintro ⟨d, hv, he⟩
    have h10 : ("2019-1-14").length = 10 := he ▸ formatDate_length d
    exact absurd h10 (by decide)
  · decide

/-- C7 (amended): `date_from_iso` implements `strptime('%Y-%m-%d')`,
which accepts a four-digit year with one- OR two-digit month and day
(zero padding optional, so e.g. `2019-1-14` is also accepted). Every
zero-padded ISO `YYYY-MM-DD` rendering of a valid calendar date parses
back to that date; everything the parser accepts is a valid calendar
date — hence right-shaped strings denoting no valid date, such as
`2019-13-40`, fail, as does any input not matching the pattern. -/
theorem date_from_iso_amended :
    (∀ d : Date, ValidDate d → date_from_iso (formatDate d) = .ok d) ∧
      (∀ s d, date_from_iso s = .ok d → ValidDate d) ∧
      date_from_iso "2019-13-40" = .error .invalidDate := by
  refine ⟨date_from_iso_formatDate, date_from_iso_valid, by decide⟩

/-- C7 witness: the amended theorem applied at `2019-01-14`. -/
theorem date_from_iso_amended_witness :
    ValidDate ⟨2019, 1, 14⟩ ∧
      date_from_iso (formatDate ⟨2019, 1, 14⟩) = .ok ⟨2019, 1, 14⟩ :=
  ⟨by decide, date_from_iso_amended.1 ⟨2019, 1, 14⟩ (by decide)⟩

theorem lastMatch_append (days : List DayEntry) (d : DayEntry) (i j : Nat) :
    lastMatch (days ++ [d]) i j =
      if (d.date.day == i + 1 && d.date.month == j + 1) = true then some d
      else lastMatch days i j := by
  unfold lastMatch
  rw [List.reverse_append]
  simp only [List.reverse_singleton, List.singleton_append]
  by_cases hp : (d.date.day == i + 1 && d.date.month == j + 1) = true
  · simp [List.find?_cons, hp]
  · rw [Bool.not_eq_true] at hp
    simp [List.find?_cons, hp]

/-- Shared characterization of the grid construction: on entries whose
dates are all valid it succeeds, the grid is 31 × 12, and each cell
holds the mood color of the last entry written to it, black when no
entry touches it. -/
theorem build_year_grid_char (days : List DayEntry) :
    (∀ d ∈ days, ValidDate d.date) →
    ∃ g, build_year_grid days = .ok g ∧ g.length = 31 ∧
      (∀ row ∈ g, List.length row = 12) ∧
      ∀ i j, i < 31 → j < 12 →
        cell g i j = ((lastMatch days i j).map (fun d => d.mood.color)).getD black := by
  induction days using List.reverseRecOn with
  | nil =>
    intro _
    refine ⟨List.replicate 31 (List.replicate 12 black), rfl, by simp, ?_, ?_⟩
    · intro row hrow
      have hr := List.eq_of_mem_replicate hrow
      simp [hr]
    · intro i j hi hj
      unfold cell lastMatch
      rw [List.getD_eq_getElem?_getD, List.getD_eq_getElem?_getD, List.getElem?_replicate,
        if_pos hi, Option.getD_some, List.getElem?_replicate, if_pos hj, Option.getD_some]
      simp
  | append_singleton days d ih =>
    intro hv
    obtain ⟨g, hok, hlen, hrows, hcell⟩ :=
      ih (fun x hx => hv x (List.mem_append_left _ hx))
    have hvd : ValidDate d.date := hv d (List.mem_append_right _ (by simp))
    obtain ⟨hy1, hy2, hm1, hm2, hd1, hd2⟩ := hvd
    have hd31 : d.date.day ≤ 31 := le_trans hd2 (daysInMonth_le _ _)
    unfold build_year_grid at hok ⊢
    rw [List.foldlM_append, hok, except_bind_ok]
    simp only [List.foldlM_cons, List.foldlM_nil, bind_pure]
    rw [setCell_ok g d.date.day d.date.month d.mood.color hlen hrows hd1 hd31 hm1 hm2]
    obtain ⟨hlen2, hrows2, hcell2⟩ :=
      setCell_dims_cells g d.date.day d.date.month d.mood.color hlen hrows hd31 hm2
    refine ⟨_, rfl, hlen2, hrows2, ?_⟩
    intro i j hi hj
    rw [hcell2 i j hi hj, lastMatch_append]
    by_cases hp : (d.date.day == i + 1 && d.date.month == j + 1) = true
    · rw [if_pos hp]
      simp only [Bool.and_eq_true, beq_iff_eq] at hp
      rw [if_pos ⟨by omega, by omega⟩]
      simp
    · rw [if_neg hp]
      simp only [Bool.and_eq_true, beq_iff_eq] at hp
      rw [if_neg (by rintro ⟨h1, h2⟩; exact hp ⟨by omega, by omega⟩)]
      exact hcell i j hi hj

/-- C6: `build_year_grid` (the grid construction of `display_year`)
yields a matrix of exactly 31 rows and 12 columns for every input whose
dates are calendar-valid (including the empty input); every cell starts
at the black sentinel and ends up holding the mood color of the last
entry in sequence order that writes to it — black when no entry
touches it. The concrete 2019-01-14/amazing scenario is the witness. -/
theorem build_year_grid_spec (days : List DayEntry)
    (hv : ∀ d ∈ days, ValidDate d.date) :
    ∃ g, build_year_grid days = .ok g ∧ g.length = 31 ∧
      (∀ row ∈ g, List.length row = 12) ∧
      ∀ i j, i < 31 → j < 12 →
        cell g i j = ((lastMatch days i j).map (fun d => d.mood.color)).getD black :=
  build_year_grid_char days hv

/-- C6 witness: the single entry 2019-01-14 with mood `amazing` gives a
31 × 12 grid whose cell [13][0] is the `amazing` color (pink) and whose
other sampled cells are black. -/
theorem build_year_grid_spec_witness :
    (∀ d ∈ [(⟨⟨2019, 1, 14⟩, DayMood.amazing, "great day!"⟩ : DayEntry)], ValidDate d.date) ∧
      ∃ g, build_year_grid [⟨⟨2019, 1, 14⟩, DayMood.amazing, "great day!"⟩] = .ok g ∧
        g.length = 31 ∧ (∀ row ∈ g, List.length row = 12) ∧
        ∀ i j, i < 31 → j < 12 →
          cell g i j =
            ((lastMatch [⟨⟨2019, 1, 14⟩, DayMood.amazing, "great day!"⟩] i j).map
              (fun d => d.mood.color)).getD black :=
  ⟨by decide, build_year_grid_spec [⟨⟨2019, 1, 14⟩, DayMood.amazing, "great day!"⟩] (by decide)⟩

/-- C9 (implicit): whenever every entry's date is a valid calendar date
(as any date produced by `date_from_iso` or Python's `date` type is),
the write `X[d.date.day - 1][d.date.month - 1]` is in bounds, so the
`IndexError` branch of the embedded indexing is unreachable and
`build_year_grid` returns a grid. -/
theorem build_year_grid_no_index_error (days : List DayEntry)
    (hv : ∀ d ∈ days, ValidDate d.date) :
    ∃ g, build_year_grid days = .ok g := by
  obtain ⟨g, hok, -, -, -⟩ := build_year_grid_char days hv
  exact ⟨g, hok⟩

/-- C9 witness: a leap-day entry (edge of the valid range) is written
in bounds. -/
theorem build_year_grid_no_index_error_witness :
    (∀ d ∈ [(⟨⟨2020, 2, 29⟩, DayMood.tired, ""⟩ : DayEntry),
        ⟨⟨2020, 12, 31⟩, DayMood.stressed, "x"⟩], ValidDate d.date) ∧
      ∃ g, build_year_grid [⟨⟨2020, 2, 29⟩, DayMood.tired, ""⟩,
        ⟨⟨2020, 12, 31⟩, DayMood.stressed, "x"⟩] = .ok g :=
  ⟨by decide, build_year_grid_no_index_error
    [⟨⟨2020, 2, 29⟩, DayMood.tired, ""⟩, ⟨⟨2020, 12, 31⟩, DayMood.stressed, "x"⟩] (by decide)⟩

/-- C3: `upsert(E, e)` equals `E` with every element whose date equals
`e.date` removed — the survivors kept in their original relative
order — and `e` appended at the end; consequently exactly one element
of the result has date `e.date`. (The operation is a pure function on
lists; the embedding returns a new list and performs no I/O by
construction.) -/
theorem upsert_spec (E : List DayEntry) (e : DayEntry) :
    upsert E e = E.filter (fun d => d.date != e.date) ++ [e] ∧
      (upsert E e).countP (fun d => d.date == e.date) = 1 := by
  refine ⟨rfl, ?_⟩
  unfold upsert
  rw [List.countP_append]
  have h0 : (E.filter (fun d => d.date != e.date)).countP (fun d => d.date == e.date) = 0 := by
    rw [List.countP_eq_zero]
    intro a ha
    have hm := List.of_mem_filter ha
    simpa using hm
  rw [h0]
  simp [List.countP, List.countP.go]

/-- C8: upsert is idempotent: `upsert(upsert(E, e), e) = upsert(E, e)`. -/
theorem upsert_idempotent (E : List DayEntry) (e : DayEntry) :
    upsert (upsert E e) e = upsert E e := by
  unfold upsert
  rw [List.filter_append, List.filter_filter]
  simp

/-- C5 counterexample: with an empty file system — the store file does
not exist — the render command propagates `FileNotFoundError` instead
of exiting cleanly: the claim "exits without rendering and without
raising an error" fails. -/
theorem render_missing_counterexample :
    render_command [] "year_in_pixels.csv" = .error .fileNotFound := by decide

/-- C5 (amended): when the store file does not exist the render command
indeed renders nothing, but not cleanly: `read_days_from_file` raises
`FileNotFoundError` and the render branch — unlike the log branch —
has no handler for it, so the error propagates out of the program. -/
theorem render_missing_file (fs : FileSystem) (path : String)
    (h : readFile fs path = none) :
    render_command fs path = .error .fileNotFound := by
  unfold render_command read_days_from_file
  rw [h]
  rfl

/-- C5 witness: the amended theorem applied to an empty file system. -/
theorem render_missing_file_witness :
    readFile [("other.csv", "x")] "year_in_pixels.csv" = none ∧
      render_command [("other.csv", "x")] "year_in_pixels.csv" = .error .fileNotFound :=
  ⟨by decide, render_missing_file [("other.csv", "x")] "year_in_pixels.csv" (by decide)⟩

/-- C10 (implicit): a store file that exists but yields zero entries
(header only) renders nothing: `if days:` is false on the empty list,
so no grid is built and nothing is displayed — and no error is
raised. -/
theorem render_empty_store (fs : FileSystem) (path : String) (content : String)
    (hf : readFile fs path = some content)
    (hp : read_days_from_csv content = .ok []) :
    render_command fs path = .ok none := by
  unfold render_command read_days_from_file
  rw [hf]
  simp only []
  rw [hp, except_bind_ok]
  rfl

/-- C10 witness: a header-only store file renders nothing. -/
theorem render_empty_store_witness :
    readFile [("year_in_pixels.csv", "date,mood,comment\n")] "year_in_pixels.csv" =
        some "date,mood,comment\n" ∧
      read_days_from_csv "date,mood,comment\n" = .ok [] ∧
      render_command [("year_in_pixels.csv", "date,mood,comment\n")] "year_in_pixels.csv" =
        .ok none :=
  ⟨by decide, by decide,
    render_empty_store [("year_in_pixels.csv", "date,mood,comment\n")] "year_in_pixels.csv"
      "date,mood,comment\n" (by decide) (by decide)⟩

theorem mapM_exists_error {α β : Type} (f : α → Except PixelsError β) (l : List α)
    (a : α) (ha : a ∈ l) (e : PixelsError) (he : f a = .error e) :
    ∃ e2, l.mapM f = .error e2 := by
  induction l with
  | nil => cases ha
  | cons x xs ih =>
    simp only [List.mapM_cons]
    rcases List.mem_cons.mp ha with h1 | h1
    · subst h1
      exact ⟨e, by rw [he]; rfl⟩
    · cases hfx : f x with
      | error e3 => exact ⟨e3, rfl⟩
      | ok b =>
        obtain ⟨e2, h2⟩ := ih h1
        exact ⟨e2, by rw [except_bind_ok, h2]; rfl⟩

/-- C4: loading is all-or-nothing: if any record of the file fails to
convert — a date that does not parse, a mood name that is not one of
the enum members, a missing field — the whole load fails with an error
and no entry list is returned (the `Except` result is an error, never a
partial list). -/
theorem read_days_all_or_nothing (content : String) (fieldnames : List String)
    (rows : List (List String)) (row : List String) (err : PixelsError)
    (hparse : csvParse content = fieldnames :: rows)
    (hrow : row ∈ rows.filter (fun r => !r.isEmpty))
    (herr : rowToDayEntry fieldnames row = .error err) :
    ∃ e, read_days_from_csv content = .error e := by
  have hcsv : read_days_from_csv content =
      (rows.filter (fun r => !r.isEmpty)).mapM (rowToDayEntry fieldnames) := by
    unfold read_days_from_csv
    rw [hparse]
  rw [hcsv]
  exact mapM_exists_error _ _ row hrow err herr

/-- C4 witness: a file whose second record carries the unknown mood
`weird` fails to load even though its first record is fine. -/
theorem read_days_all_or_nothing_witness :
    csvParse "date,mood,comment\n2019-01-14,amazing,ok\n2019-01-15,weird,x\n" =
        [["date", "mood", "comment"], ["2019-01-14", "amazing", "ok"],
          ["2019-01-15", "weird", "x"]] ∧
      rowToDayEntry ["date", "mood", "comment"] ["2019-01-15", "weird", "x"] =
        .error .invalidMood ∧
      ∃ e, read_days_from_csv "date,mood,comment\n2019-01-14,amazing,ok\n2019-01-15,weird,x\n" =
        .error e :=
  ⟨by decide, by decide,
    read_days_all_or_nothing "date,mood,comment\n2019-01-14,amazing,ok\n2019-01-15,weird,x\n"
      ["date", "mood", "comment"]
      [["2019-01-14", "amazing", "ok"], ["2019-01-15", "weird", "x"]]
      ["2019-01-15", "weird", "x"] .invalidMood (by decide) (by decide) (by decide)⟩

theorem saveLines_join (entries : List DayEntry) :
    String.join (saveLines entries) = write_days entries := by
  unfold saveLines write_days writeRows
  rw [String.join_eq]
  simp only [List.map_map, List.map_cons]
  rfl

/-- C1 counterexample: the save block passes no `dir` argument to
`NamedTemporaryFile`, so the temporary file is created in the system
default temporary directory; with that directory `/tmp` and the target
path in `/home/user`, the temporary file is NOT in the same directory
as the target (and the final `shutil.move` is then not guaranteed to be
a same-filesystem rename). -/
theorem save_tempdir_counterexample :
    namedTempFileDir saveTempDirArg "/tmp" ≠ "/home/user" := by decide

/-- C1 (amended): the entries are first written in full to a temporary
file in the system default temporary directory (not necessarily the
target's directory — the `shutil.move` at the end is a single rename
only when the two share a filesystem, and a copy otherwise); the
temporary file replaces the target only after every line has been
written; if writing fails midway the target's original content is
unchanged and the temporary file is never moved into place. -/
theorem save_atomic (target : Option String) (entries : List DayEntry) (k : Nat)
    (hk : k < (saveLines entries).length) :
    (runSave target entries (some k)).targetContent = target ∧
      (runSave target entries (some k)).tempContent =
        some (String.join ((saveLines entries).take k)) ∧
      (runSave target entries (some k)).completed = false ∧
      (runSave target entries none).targetContent = some (write_days entries) ∧
      ∀ sysTmpDir : String, namedTempFileDir saveTempDirArg sysTmpDir = sysTmpDir := by
  unfold runSave
  simp only []
  rw [if_pos hk]
  exact ⟨rfl, rfl, rfl, congrArg some (saveLines_join entries), fun s => rfl⟩

/-- C1 witness: a one-entry save interrupted after the header line
leaves the old target content in place. -/
theorem save_atomic_witness :
    1 < (saveLines [⟨⟨2019, 1, 14⟩, DayMood.amazing, "hi"⟩]).length ∧
      (runSave (some "old") [⟨⟨2019, 1, 14⟩, DayMood.amazing, "hi"⟩] (some 1)).targetContent =
        some "old" ∧
      (runSave (some "old") [⟨⟨2019, 1, 14⟩, DayMood.amazing, "hi"⟩] (some 1)).completed =
        false :=
  ⟨by decide,
    (save_atomic (some "old") [⟨⟨2019, 1, 14⟩, DayMood.amazing, "hi"⟩] 1 (by decide)).1,
    (save_atomic (some "old") [⟨⟨2019, 1, 14⟩, DayMood.amazing, "hi"⟩] 1 (by decide)).2.2.1⟩

/-! Single-step reductions of the reader automaton, used by the
round-trip proof. -/

theorem csvScan_start_quote (input : List Char) (st : CsvState) (field : List Char)
    (row : List String) (out : List (List String))
    (hst : st = .startRecord ∨ st = .afterCR ∨ st = .startField) :
    csvScan ('"' :: input) st field row out = csvScan input .inQuoted field row out := by
  rcases hst with h | h | h <;> subst h <;> rfl

theorem csvScan_inQuoted_char (c : Char) (hc : ¬ c = '"') (input : List Char)
    (field : List Char) (row : List String) (out : List (List String)) :
    csvScan (c :: input) .inQuoted field row out =
      csvScan input .inQuoted (field ++ [c]) row out := by
  simp only [csvScan]
  rw [if_neg hc]

theorem csvScan_quoteInQuoted_comma (input : List Char) (field : List Char)
    (row : List String) (out : List (List String)) :
    csvScan (',' :: input) .quoteInQuoted field row out =
      csvScan input .startField [] (row ++ [String.mk field]) out := rfl

theorem csvScan_quoteInQuoted_newline (input : List Char) (field : List Char)
    (row : List String) (out : List (List String)) :
    csvScan ('\n' :: input) .quoteInQuoted field row out =
      csvScan input .startRecord [] [] (out ++ [row ++ [String.mk field]]) := rfl

/-- Scanning the escaped body of a quoted field up to its closing quote
appends the body to the current field. -/
theorem csvScan_quoted_body (s : List Char) : ∀ (rest field : List Char)
    (row : List String) (out : List (List String)),
    csvScan (escapeQuotes s ++ '"' :: rest) .inQuoted field row out =
      csvScan rest .quoteInQuoted (field ++ s) row out := by
  induction s with
  | nil =>
    intro rest field row out
    show csvScan ('"' :: rest) .inQuoted field row out = _
    rw [show csvScan ('"' :: rest) .inQuoted field row out =
      csvScan rest .quoteInQuoted field row out from rfl]
    simp
  | cons c s ih =>
    intro rest field row out
    by_cases hc : c = '"'
    · subst hc
      show csvScan ('"' :: '"' :: (escapeQuotes s ++ '"' :: rest)) .inQuoted field row out = _
      rw [show csvScan ('"' :: '"' :: (escapeQuotes s ++ '"' :: rest)) .inQuoted field row out =
        csvScan (escapeQuotes s ++ '"' :: rest) .inQuoted (field ++ ['"']) row out from rfl]
      rw [ih]
      simp
    · rw [show escapeQuotes (c :: s) = c :: escapeQuotes s from by simp [escapeQuotes, hc]]
      rw [List.cons_append, csvScan_inQuoted_char c hc]
      rw [ih]
      simp

/-- Scanning one quoted field from a field-start state consumes it and
stops right after its closing quote. -/
theorem csvScan_field (f : String) (rest : List Char) (st : CsvState)
    (field : List Char) (row : List String) (out : List (List String))
    (hst : st = .startRecord ∨ st = .afterCR ∨ st = .startField) :
    csvScan (quoteField f ++ rest) st field row out =
      csvScan rest .quoteInQuoted (field ++ f.data) row out := by
  have hshape : quoteField f ++ rest = '"' :: (escapeQuotes f.data ++ '"' :: rest) := by
    unfold quoteField
    simp
  rw [hshape, csvScan_start_quote _ _ _ _ _ hst, csvScan_quoted_body]

/-- Scanning one written row from a field-start state emits exactly
that row as the next record. -/
theorem csvScan_row (fs : List String) : fs ≠ [] → ∀ (rest : List Char) (st : CsvState)
    (row : List String) (out : List (List String)),
    (st = .startRecord ∨ st = .afterCR ∨ st = .startField) →
    csvScan (writeRow fs ++ rest) st [] row out =
      csvScan rest .startRecord [] [] (out ++ [row ++ fs]) := by
  induction fs with
  | nil => exact fun hne => absurd rfl hne
  | cons f fs ih =>
    intro _ rest st row out hst
    cases fs with
    | nil =>
      show csvScan ((quoteField f ++ ['\n']) ++ rest) st [] row out = _
      rw [List.append_assoc, csvScan_field f _ st [] row out hst]
      rw [show (['\n'] : List Char) ++ rest = '\n' :: rest from rfl]
      rw [csvScan_quoteInQuoted_newline]
      simp
    | cons f2 fs2 =>
      show csvScan ((quoteField f ++ ',' :: writeRow (f2 :: fs2)) ++ rest) st [] row out = _
      rw [List.append_assoc, csvScan_field f _ st [] row out hst]
      rw [show (',' :: writeRow (f2 :: fs2)) ++ rest =
        ',' :: (writeRow (f2 :: fs2) ++ rest) from rfl]
      rw [csvScan_quoteInQuoted_comma]
      rw [ih (by simp) rest .startField (row ++ [String.mk ([] ++ f.data)]) out
        (Or.inr (Or.inr rfl))]
      simp

/-- Scanning a whole written file appends all its records. -/
theorem csvScan_rows (rows : List (List String)) : (∀ r ∈ rows, r ≠ []) →
    ∀ (out : List (List String)),
    csvScan ((rows.map writeRow).flatten) .startRecord [] [] out = out ++ rows := by
  induction rows with
  | nil => intro _ out; simp [csvScan]
  | cons r rows ih =>
    intro hall out
    simp only [List.map_cons, List.flatten_cons]
    rw [csvScan_row r (hall r (by simp)) _ .startRecord _ _ (Or.inl rfl)]
    rw [ih (fun x hx => hall x (by simp [hx]))]
    simp

/-- The reader parses back exactly what the writer wrote (for records
with at least one field, as all written records here have). -/
theorem csvParse_writeRows (rows : List (List String)) (hall : ∀ r ∈ rows, r ≠ []) :
    csvParse (String.mk (writeRows rows)) = rows := by
  unfold csvParse writeRows
  rw [show (String.mk ((rows.map writeRow).flatten)).data =
    (rows.map writeRow).flatten from rfl]
  rw [csvScan_rows rows hall []]
  simp

theorem moodFromName_name (m : DayMood) : moodFromName m.name = .ok m := by
  cases m <;> decide

theorem rowToDayEntry_toRow (e : DayEntry) (hv : ValidDate e.date) :
    rowToDayEntry fieldnamesList (DayEntry.toRow e) = .ok e := by
  have h1 : rowToDayEntry fieldnamesList (DayEntry.toRow e) =
      (do
        let dateVal ← date_from_iso (formatDate e.date)
        let moodVal ← moodFromName e.mood.name
        Except.ok ⟨dateVal, moodVal, e.comment⟩) := rfl
  rw [h1, date_from_iso_formatDate e.date hv, except_bind_ok,
    moodFromName_name, except_bind_ok]

theorem mapM_toRow (entries : List DayEntry) : (∀ e ∈ entries, ValidDate e.date) →
    (entries.map DayEntry.toRow).mapM (rowToDayEntry fieldnamesList) = .ok entries := by
  induction entries with
  | nil => intro _; rfl
  | cons e es ih =>
    intro hv
    simp only [List.map_cons, List.mapM_cons]
    rw [rowToDayEntry_toRow e (hv e (by simp)), except_bind_ok,
      ih (fun x hx => hv x (by simp [hx])), except_bind_ok]
    rfl

/-- Shared with C2: full load-after-save round trip. -/
theorem read_days_write_days (entries : List DayEntry)
    (hv : ∀ e ∈ entries, ValidDate e.date) :
    read_days_from_csv (write_days entries) = .ok entries := by
  have hall : ∀ r ∈ fieldnamesList :: entries.map DayEntry.toRow, r ≠ [] := by
    intro r hr
    rcases List.mem_cons.mp hr with h | h
    · subst h; simp [fieldnamesList]
    · obtain ⟨e, he, rfl⟩ := List.mem_map.mp h
      simp [DayEntry.toRow]
  have hparse : csvParse (write_days entries) =
      fieldnamesList :: entries.map DayEntry.toRow :=
    csvParse_writeRows _ hall
  unfold read_days_from_csv
  rw [hparse]
  simp only []
  have hfilter : (entries.map DayEntry.toRow).filter (fun r => !r.isEmpty) =
      entries.map DayEntry.toRow := by
    rw [List.filter_eq_self]
    intro a ha
    obtain ⟨e, he, rfl⟩ := List.mem_map.mp ha
    simp [DayEntry.toRow]
  rw [hfilter, mapM_toRow entries hv]

/-- C2: serializing a sequence of entries to CSV (header
`date,mood,comment`, ISO date, mood by its stable enum name, arbitrary
quoted comment) and parsing the result back yields the original
sequence with order and all field values preserved. Stated for entries
whose dates are representable Python dates (`ValidDate`) and pairwise
distinct, as the claim assumes. -/
theorem serialize_parse_roundtrip (entries : List DayEntry)
    (hv : ∀ e ∈ entries, ValidDate e.date)
    (_hdist : entries.Pairwise (fun a b => a.date ≠ b.date)) :
    read_days_from_csv (write_days entries) = .ok entries :=
  read_days_write_days entries hv

/-- C2 witness: a two-entry store whose comments contain commas, quotes
and a newline survives the round trip. -/
theorem serialize_parse_roundtrip_witness :
    (∀ e ∈ [(⟨⟨2019, 1, 14⟩, DayMood.amazing, "great, \"quoted\" day\nnext line"⟩ : DayEntry),
        ⟨⟨2019, 2, 3⟩, DayMood.sad, ""⟩], ValidDate e.date) ∧
      ([(⟨⟨2019, 1, 14⟩, DayMood.amazing, "great, \"quoted\" day\nnext line"⟩ : DayEntry),
        ⟨⟨2019, 2, 3⟩, DayMood.sad, ""⟩].Pairwise (fun a b => a.date ≠ b.date)) ∧
      read_days_from_csv (write_days
        [⟨⟨2019, 1, 14⟩, DayMood.amazing, "great, \"quoted\" day\nnext line"⟩,
          ⟨⟨2019, 2, 3⟩, DayMood.sad, ""⟩]) =
        .ok [⟨⟨2019, 1, 14⟩, DayMood.amazing, "great, \"quoted\" day\nnext line"⟩,
          ⟨⟨2019, 2, 3⟩, DayMood.sad, ""⟩] :=
  ⟨by decide, by decide,
    serialize_parse_roundtrip
      [⟨⟨2019, 1, 14⟩, DayMood.amazing, "great, \"quoted\" day\nnext line"⟩,
        ⟨⟨2019, 2, 3⟩, DayMood.sad, ""⟩] (by decide) (by decide)⟩

-- scratch checks, removed later
example : csvParse "date,mood,comment\n2019-01-14,amazing,great day!\n" =
    [["date", "mood", "comment"], ["2019-01-14", "amazing", "great day!"]] := by decide
example : csvParse "\"a,b\",\"c\"\"d\",\"e\nf\"\n" = [["a,b", "c\"d", "e\nf"]] := by decide
example : read_days_from_csv "date,mood,comment\n2019-01-14,amazing,great day!\n" =
    .ok [⟨⟨2019, 1, 14⟩, .amazing, "great day!"⟩] := by decide
example : read_days_from_csv "date,mood,comment\n2019-01-14,weird,x\n" =
    .error .invalidMood := by decide
example : write_days [⟨⟨2019, 1, 14⟩, .amazing, "great day!"⟩] =
    "\"date\",\"mood\",\"comment\"\n\"2019-01-14\",\"amazing\",\"great day!\"\n" := by decide
example : read_days_from_csv (write_days [⟨⟨2019, 1, 14⟩, .amazing, "great day!"⟩]) =
    .ok [⟨⟨2019, 1, 14⟩, .amazing, "great day!"⟩] := by decide
example : date_from_iso "2019-01-14" = .ok ⟨2019, 1, 14⟩ := by decide
example : date_from_iso "2019-13-40" = .error .invalidDate := by decide
example : date_from_iso "2019-1-14" = .ok ⟨2019, 1, 14⟩ := by decide
example : date_from_iso "2019-02-29" = .error .invalidDate := by decide
example : date_from_iso "2020-02-29" = .ok ⟨2020, 2, 29⟩ := by decide
example : date_from_iso "0000-01-01" = .error .invalidDate := by decide
example : date_from_iso "2019-01-14x" = .error .invalidDate := by decide
example : date_from_iso "19-1-1" = .error .invalidDate := by decide
example : formatDate ⟨2019, 1, 14⟩ = "2019-01-14" := by decide

end YearInPixels
